import Mathlib

/-!
Verification of the rust-smtp-server specification against its code.

The repository's `src/main.rs` declares `mod smtp;` but the file `src/smtp.rs`
(Protocol Engine, `Connection`, `Message`, `ConnectionsResponse`) is not part of
the sources available here; the definitions for that module are modelled from
the specification, as marked in their doc comments. Everything else is a direct
shallow embedding of `src/main.rs`.
-/

/-- Modelled from the spec: `Message` in the missing `src/smtp.rs` — one mail
submission: sender address, ordered recipient list, raw body text with the
framing terminator already stripped. -/
structure Message where
  sender : String
  recipients : List String
  data : String
deriving Repr, DecidableEq

/-- Modelled from the spec: `Connection` in the missing `src/smtp.rs` — one
completed session. The `Option` fields mirror the Rust accessors
`get_sender_domain` and `get_messages`, which return `Option` values that
`main.rs` unwraps; both start out `none` and are populated by the greeting. -/
structure Connection where
  sender_domain : Option String
  messages : Option (List Message)
deriving Repr, DecidableEq

/-- Accessor mirrored from the call `result.get_sender_domain()` in `main.rs`. -/
def Connection.get_sender_domain (c : Connection) : Option String :=
  c.sender_domain

/-- Accessor mirrored from the call `result.get_messages()` in `main.rs`. -/
def Connection.get_messages (c : Connection) : Option (List Message) :=
  c.messages

/-- Modelled from the spec: the Protocol Engine's states in the missing
`src/smtp.rs`, following spec §4.1
`Init → Greeted → (MailFrom → RcptTo⁺ → Data → MessageComplete)* → Closed`.
`Greeted` and `MessageComplete` accept the same commands and are merged;
`mail_from` carries the current message builder (sender and recipients so
far), `data_state` additionally carries the raw body lines read so far. -/
inductive SmtpState where
  | init
  | greeted
  | mail_from (sender : String) (recipients : List String)
  | data_state (sender : String) (recipients : List String) (lines : List String)
  | closed
deriving Repr, DecidableEq

/-- Modelled from the spec: the protocol commands of §6, abstracted over their
concrete line syntax (the exact verb spellings live in the missing
`src/smtp.rs`). `line` is a raw body line read while capturing data. -/
inductive Command where
  | helo (domain : String)
  | mail_from (sender : String)
  | rcpt_to (addr : String)
  | data_cmd
  | quit
  | line (s : String)
deriving Repr, DecidableEq

/-- Modelled from the spec: the per-command textual status responses of §4.1
("one textual status response per received command"): success ack, sequencing
error ack, the intermediate ack answering begin-data, and no reply for raw
body lines. -/
inductive Reply where
  | ok
  | seqError
  | dataIntermediate
  | noReply
deriving Repr, DecidableEq

/-- Modelled from the spec: the fatal error kinds of §7 that abort a session
(framing/parse error, transport I/O error, abrupt disconnect). -/
inductive SmtpError where
  | io
  | framing
  | abruptClose
deriving Repr, DecidableEq

/-- Modelled from the spec: a protocol engine in flight — current state plus
the incrementally built `Connection` (§3 lifecycle). -/
structure Engine where
  state : SmtpState
  conn : Connection
deriving Repr, DecidableEq

/-- The engine a session starts in: state `Init`, nothing recorded yet. -/
def initEngine : Engine :=
  { state := SmtpState.init, conn := { sender_domain := none, messages := none } }

/-- Modelled from the spec: §6's command/state validity table. A command is
valid exactly in the states listed there; begin-data additionally requires at
least one recipient, and raw lines are valid only while capturing data. -/
def validIn : SmtpState → Command → Bool
  | SmtpState.init, Command.helo _ => true
  | SmtpState.greeted, Command.mail_from _ => true
  | SmtpState.greeted, Command.quit => true
  | SmtpState.mail_from _ _, Command.rcpt_to _ => true
  | SmtpState.mail_from _ rs, Command.data_cmd => !rs.isEmpty
  | SmtpState.mail_from _ _, Command.quit => true
  | SmtpState.data_state _ _ _, Command.line _ => true
  | _, _ => false

/-- Modelled from the spec: one transition of the Protocol Engine (§4.1).
The greeting records the sender domain and initialises the message list;
begin-message starts a builder; add-recipient appends; begin-data requires a
non-empty recipient list; in data capture a lone `"."` line finalises the
`Message` (body lines joined with their line breaks) and any other line is
appended verbatim; terminate closes the session; every command outside its
valid state leaves the engine unchanged and answers a sequencing error. -/
def step (e : Engine) (c : Command) : Engine × Reply :=
  match e.state, c with
  | SmtpState.init, Command.helo d =>
      ({ state := SmtpState.greeted,
         conn := { sender_domain := some d, messages := some [] } }, Reply.ok)
  | SmtpState.greeted, Command.mail_from s =>
      ({ e with state := SmtpState.mail_from s [] }, Reply.ok)
  | SmtpState.greeted, Command.quit =>
      ({ e with state := SmtpState.closed }, Reply.ok)
  | SmtpState.mail_from s rs, Command.rcpt_to a =>
      ({ e with state := SmtpState.mail_from s (rs ++ [a]) }, Reply.ok)
  | SmtpState.mail_from s rs, Command.data_cmd =>
      if rs.isEmpty then (e, Reply.seqError)
      else ({ e with state := SmtpState.data_state s rs [] }, Reply.dataIntermediate)
  | SmtpState.mail_from _ _, Command.quit =>
      ({ e with state := SmtpState.closed }, Reply.ok)
  | SmtpState.data_state s rs ls, Command.line l =>
      if l = "." then
        ({ state := SmtpState.greeted,
           conn := { e.conn with
             messages := some ((e.conn.messages.getD []) ++
               [{ sender := s, recipients := rs,
                  data := String.intercalate "\n" ls }]) } }, Reply.ok)
      else ({ e with state := SmtpState.data_state s rs (ls ++ [l]) }, Reply.noReply)
  | _, _ => (e, Reply.seqError)

/-- Modelled from the spec: the session result when the input stream ends
without an explicit quit (§3 lifecycle: a session ends normally on "explicit
quit or clean stream closure after at least a greeting"; §8: a disconnect
mid-data discards the session; closure before any greeting is likewise
abnormal). -/
def eofResult (e : Engine) : Except SmtpError Connection :=
  match e.state with
  | SmtpState.closed => Except.ok e.conn
  | SmtpState.greeted => Except.ok e.conn
  | SmtpState.mail_from _ _ => Except.ok e.conn
  | _ => Except.error SmtpError.abruptClose

/-- One observed session input: either a parsed protocol line or a transport
read failure. -/
inductive SessionItem where
  | cmd (c : Command)
  | ioError
deriving Repr, DecidableEq

/-- Modelled from the spec: the Protocol Engine's driver loop over the items
read from the transport. A closed engine reads no further input; a transport
read failure aborts the session with an I/O error; otherwise each command is
stepped in turn, and exhausting the input is handled by `eofResult`. -/
def runItems (e : Engine) : List SessionItem → Except SmtpError Connection
  | [] => eofResult e
  | item :: rest =>
      if e.state = SmtpState.closed then Except.ok e.conn
      else
        match item with
        | SessionItem.ioError => Except.error SmtpError.io
        | SessionItem.cmd c => runItems (step e c).1 rest

/-- Modelled from the spec: `smtp::Connection::handle` in the missing
`src/smtp.rs` — run a whole session from the initial state, returning the
finalized `Connection` on clean termination and an error otherwise (§4.1
result contract). -/
def Connection.handle (items : List SessionItem) : Except SmtpError Connection :=
  runItems initEngine items

/-- Shallow embedding of `handle_connection` (`src/main.rs` lines 84–100):
run the SMTP exchange; on success push the resulting `Connection` onto the
shared repository, on error only log (modelled as leaving the repository
unchanged). The `println!` diagnostics have no effect on the repository and
are not modelled. -/
def handle_connection (items : List SessionItem) (repo : List Connection) :
    List Connection :=
  match Connection.handle items with
  | Except.ok result => repo ++ [result]
  | Except.error _ => repo

/-- Modelled from the spec: `ConnectionsResponse` in the missing
`src/smtp.rs`, the List response document `{ count, connections }` of §6. -/
structure ConnectionsResponse where
  count : Nat
  connections : List Connection
deriving Repr, DecidableEq

/-- Modelled from the spec: `ConnectionsResponse::new`, called in `main.rs`
line 133 on a copy of the repository — the count is the number of stored
connections and the connections field is the full nested data. -/
def ConnectionsResponse.new (cs : List Connection) : ConnectionsResponse :=
  { count := cs.length, connections := cs }

/-- Shallow embedding of the `warp::get()` List handler (`src/main.rs` lines
131–135): it copies the current repository contents (`repo.clone()`), builds
the response from the copy, and leaves the repository unchanged. -/
def listOp (repo : List Connection) : List Connection × ConnectionsResponse :=
  (repo, ConnectionsResponse.new repo)

/-- Shallow embedding of the `warp::delete()` Clear handler (`src/main.rs`
lines 138–142): it empties the repository (`repo.clear()`) and returns the
fixed acknowledgement string `"Wiped"`. -/
def clearOp (_repo : List Connection) : List Connection × String :=
  ([], "Wiped")

/-- Shallow embedding of `Config` (`src/main.rs` lines 15–19): bind host,
SMTP port kept as a string, REST port a validated 16-bit integer (kept as a
natural number here). -/
structure Config where
  host : String
  smtp_port : String
  rest_port : Nat
deriving Repr, DecidableEq

/-- Shallow embedding of `Config::smtp_config` (`src/main.rs` lines 22–28):
the SMTP bind address is `"{host}:{smtp_port}"`. -/
def Config.smtp_config (c : Config) : String :=
  c.host ++ ":" ++ c.smtp_port

/-- An IPv4 socket address as built by warp's `run(([a, b, c, d], port))`. -/
structure SocketAddrV4 where
  ip : Nat × Nat × Nat × Nat
  port : Nat
deriving Repr, DecidableEq

/-- Shallow embedding of the REST bind address (`src/main.rs` line 148):
`warp::serve(routes).run(([127, 0, 0, 1], port))` with `port = config.rest_port`. -/
def restBindAddr (c : Config) : SocketAddrV4 :=
  { ip := (127, 0, 0, 1), port := c.rest_port }

/-- Shallow embedding of the SMTP bind address (`src/main.rs` lines 113–114):
`TcpListener::bind` is called on `config.smtp_config()`. -/
def smtpBindAddr (c : Config) : String :=
  c.smtp_config

/-- The observable sub-steps of the `warp::get()` List handler closure
(`src/main.rs` lines 131–135), in source order: `count_clone.lock()` acquires
the repository lock; `repo.clone()` copies the stored sequence;
`warp::reply::json(&response)` serializes the response eagerly; the
`MutexGuard` `repo` is dropped when the closure returns, releasing the lock;
warp transmits the already-serialized reply afterwards. -/
inductive RestEvent where
  | lock_acquire
  | copy_repo
  | serialize
  | lock_release
  | transmit
deriving Repr, DecidableEq

/-- The event trace of one execution of the List handler, read off the source
order of `src/main.rs` lines 131–135: the lock guard bound on line 132 lives
to the end of the closure, so it is released only after `warp::reply::json`
on line 134 has serialized the response, and before warp transmits it. -/
def listHandlerTrace : List RestEvent :=
  [RestEvent.lock_acquire, RestEvent.copy_repo, RestEvent.serialize,
   RestEvent.lock_release, RestEvent.transmit]

/-- The events of a trace that execute while the repository lock is held,
given whether the lock is held at the start of the trace. -/
def lockedEvents : Bool → List RestEvent → List RestEvent
  | _, [] => []
  | _, RestEvent.lock_acquire :: rest => lockedEvents true rest
  | _, RestEvent.lock_release :: rest => lockedEvents false rest
  | held, e :: rest =>
      if held then e :: lockedEvents held rest else lockedEvents held rest

/-- Iterating the engine over a command list (the engine reached after a
prefix of a session). -/
def stepAll (e : Engine) (cs : List Command) : Engine :=
  cs.foldl (fun e c => (step e c).1) e

/-- Every message in an optional message list has at least one recipient. -/
def msgsOk : Option (List Message) → Prop
  | none => True
  | some ms => ∀ m ∈ ms, m.recipients ≠ []

/-- The engine invariant: all captured messages have a recipient; outside the
initial state the sender domain and the message list are populated; while
capturing data the pending recipient list is non-empty. -/
def engineInv (e : Engine) : Prop :=
  msgsOk e.conn.messages ∧
  (e.state ≠ SmtpState.init →
    e.conn.sender_domain.isSome = true ∧ e.conn.messages.isSome = true) ∧
  (∀ s rs ls, e.state = SmtpState.data_state s rs ls → rs ≠ [])

theorem initEngine_inv : engineInv initEngine := by
  refine ⟨trivial, ?_, ?_⟩
  · intro hne; simp [initEngine] at hne
  · intro s rs ls hst; simp [initEngine] at hst

theorem step_inv (e : Engine) (c : Command) (h : engineInv e) :
    engineInv (step e c).1 := by
  obtain ⟨h1, h2, h3⟩ := h
  rcases e with ⟨st, conn⟩
  have hkeep : engineInv ⟨st, conn⟩ := ⟨h1, h2, h3⟩
  cases st with
  | init =>
    cases c with
    | helo d =>
      refine ⟨?_, fun _ => ⟨rfl, rfl⟩, ?_⟩
      · intro m hm
        exact absurd hm (List.not_mem_nil m)
      · intro s rs ls heq
        exact SmtpState.noConfusion heq
    | mail_from s => exact hkeep
    | rcpt_to a => exact hkeep
    | data_cmd => exact hkeep
    | quit => exact hkeep
    | line l => exact hkeep
  | greeted =>
    cases c with
    | helo d => exact hkeep
    | mail_from s =>
      refine ⟨h1, fun _ => h2 (by simp), ?_⟩
      intro s' rs' ls' heq
      exact SmtpState.noConfusion heq
    | rcpt_to a => exact hkeep
    | data_cmd => exact hkeep
    | quit =>
      refine ⟨h1, fun _ => h2 (by simp), ?_⟩
      intro s' rs' ls' heq
      exact SmtpState.noConfusion heq
    | line l => exact hkeep
  | mail_from s rs =>
    cases c with
    | helo d => exact hkeep
    | mail_from s2 => exact hkeep
    | rcpt_to a =>
      refine ⟨h1, fun _ => h2 (by simp), ?_⟩
      intro s' rs' ls' heq
      exact SmtpState.noConfusion heq
    | data_cmd =>
      by_cases hrs : rs.isEmpty
      · have hstep : step ⟨SmtpState.mail_from s rs, conn⟩ Command.data_cmd =
            (⟨SmtpState.mail_from s rs, conn⟩, Reply.seqError) := by
          simp [step, hrs]
        rw [hstep]
        exact hkeep
      · have hstep : step ⟨SmtpState.mail_from s rs, conn⟩ Command.data_cmd =
            (⟨SmtpState.data_state s rs [], conn⟩, Reply.dataIntermediate) := by
          simp [step, hrs]
        rw [hstep]
        refine ⟨h1, fun _ => h2 (by simp), ?_⟩
        intro s' rs' ls' heq
        cases heq
        intro hnil
        exact hrs (by simp [hnil])
    | quit =>
      refine ⟨h1, fun _ => h2 (by simp), ?_⟩
      intro s' rs' ls' heq
      exact SmtpState.noConfusion heq
    | line l => exact hkeep
  | data_state s rs ls =>
    have hrs : rs ≠ [] := h3 s rs ls rfl
    cases c with
    | helo d => exact hkeep
    | mail_from s2 => exact hkeep
    | rcpt_to a => exact hkeep
    | data_cmd => exact hkeep
    | quit => exact hkeep
    | line l =>
      obtain ⟨hdom, hmsg⟩ := h2 (by simp)
      obtain ⟨ms, hms⟩ := Option.isSome_iff_exists.mp hmsg
      by_cases hl : l = "."
      · have hstep : step ⟨SmtpState.data_state s rs ls, conn⟩ (Command.line l) =
            (⟨SmtpState.greeted,
              { conn with messages := some ((conn.messages.getD []) ++
                  [{ sender := s, recipients := rs,
                     data := String.intercalate "\n" ls }]) }⟩, Reply.ok) := by
          simp [step, hl]
        rw [hstep]
        refine ⟨?_, fun _ => ⟨hdom, rfl⟩, ?_⟩
        · have hms' : conn.messages = some ms := hms
          have h1' : ∀ m ∈ ms, m.recipients ≠ [] := by
            have hmm : msgsOk (some ms) := by rw [← hms']; exact h1
            exact hmm
          have hgd : conn.messages.getD [] = ms := by
            rw [hms']
            rfl
          intro m hm
          rw [hgd] at hm
          rcases List.mem_append.mp hm with hin | hin
          · exact h1' m hin
          · have : m = { sender := s, recipients := rs,
                         data := String.intercalate "\n" ls } := by
              simpa using hin
            subst this
            exact hrs
        · intro s' rs' ls' heq
          exact SmtpState.noConfusion heq
      · have hstep : step ⟨SmtpState.data_state s rs ls, conn⟩ (Command.line l) =
            (⟨SmtpState.data_state s rs (ls ++ [l]), conn⟩, Reply.noReply) := by
          simp [step, hl]
        rw [hstep]
        refine ⟨h1, fun _ => ⟨hdom, hmsg⟩, ?_⟩
        intro s' rs' ls' heq
        cases heq
        exact hrs
  | closed =>
    cases c with
    | helo d => exact hkeep
    | mail_from s => exact hkeep
    | rcpt_to a => exact hkeep
    | data_cmd => exact hkeep
    | quit => exact hkeep
    | line l => exact hkeep

theorem stepAll_inv (cs : List Command) :
    ∀ e : Engine, engineInv e → engineInv (stepAll e cs) := by
  induction cs with
  | nil => intro e he; exact he
  | cons c rest ih =>
    intro e he
    exact ih (step e c).1 (step_inv e c he)

theorem runItems_ok (items : List SessionItem) :
    ∀ e : Engine, engineInv e → ∀ cn : Connection,
      runItems e items = Except.ok cn →
      msgsOk cn.messages ∧
      cn.sender_domain.isSome = true ∧ cn.messages.isSome = true := by
  induction items with
  | nil =>
    intro e he cn hrun
    obtain ⟨h1, h2, _⟩ := he
    rcases e with ⟨st, conn⟩
    cases st with
    | init => simp [runItems, eofResult] at hrun
    | greeted =>
      simp [runItems, eofResult] at hrun
      subst hrun
      exact ⟨h1, h2 (by simp)⟩
    | mail_from s rs =>
      simp [runItems, eofResult] at hrun
      subst hrun
      exact ⟨h1, h2 (by simp)⟩
    | data_state s rs ls => simp [runItems, eofResult] at hrun
    | closed =>
      simp [runItems, eofResult] at hrun
      subst hrun
      exact ⟨h1, h2 (by simp)⟩
  | cons item rest ih =>
    intro e he cn hrun
    by_cases hcl : e.state = SmtpState.closed
    · obtain ⟨h1, h2, _⟩ := he
      simp [runItems, hcl] at hrun
      subst hrun
      exact ⟨h1, h2 (by rw [hcl]; simp)⟩
    · cases item with
      | ioError => simp [runItems, hcl] at hrun
      | cmd c =>
        simp only [runItems, hcl, if_false, ite_false] at hrun
        exact ih (step e c).1 (step_inv e c he) cn hrun

/-- C1: for the sequence greet "a.com"; begin-message "x@a.com";
add-recipient "y@b.com"; begin-data; body line "hello"; terminator; terminate,
the Protocol Engine returns a Connection with sender domain "a.com" and
exactly one Message with sender "x@a.com", recipients ["y@b.com"] and body
data "hello". -/
theorem C1_happy_path :
    Connection.handle
      [SessionItem.cmd (Command.helo "a.com"),
       SessionItem.cmd (Command.mail_from "x@a.com"),
       SessionItem.cmd (Command.rcpt_to "y@b.com"),
       SessionItem.cmd Command.data_cmd,
       SessionItem.cmd (Command.line "hello"),
       SessionItem.cmd (Command.line "."),
       SessionItem.cmd Command.quit] =
      Except.ok { sender_domain := some "a.com",
                  messages := some [{ sender := "x@a.com",
                                      recipients := ["y@b.com"],
                                      data := "hello" }] } := by
  rfl

/-- C2: when the protocol handling of a session ends in an error the session
worker appends nothing to the repository, and a Connection is appended
exactly when the engine returns success (the success branch appends the
result, mirroring `handle_connection` in `src/main.rs`). -/
theorem C2_error_discards_session (items : List SessionItem)
    (repo : List Connection) :
    (∀ err : SmtpError, Connection.handle items = Except.error err →
      handle_connection items repo = repo) ∧
    (∀ cn : Connection, Connection.handle items = Except.ok cn →
      handle_connection items repo = repo ++ [cn]) := by
  constructor
  · intro err h
    simp [handle_connection, h]
  · intro cn h
    simp [handle_connection, h]

theorem C2_witness : handle_connection [SessionItem.ioError] [] = [] :=
  (C2_error_discards_session [SessionItem.ioError] []).1 SmtpError.io (by rfl)

/-- C3 counterexample: in the List handler of `src/main.rs` the lock guard
bound on line 132 is dropped only when the closure returns, after
`warp::reply::json` on line 134 has serialized the response — so, contrary to
the claim, serialization is performed while the repository lock is held. -/
theorem C3_serialize_while_locked :
    RestEvent.serialize ∈ lockedEvents false listHandlerTrace := by
  decide

/-- C3 amended: the List handler holds the repository lock across the copy
and the serialization of the response, releasing it when the handler closure
returns; the lock is released before the reply is transmitted, so no network
I/O happens while the lock is held. -/
theorem C3_lock_released_before_transmit :
    lockedEvents false listHandlerTrace =
      [RestEvent.copy_repo, RestEvent.serialize] ∧
    RestEvent.transmit ∉ lockedEvents false listHandlerTrace := by
  decide

/-- C4: begin-data in a message with zero recipients yields a sequencing
error and leaves the engine unchanged (no transition to raw capture), and
consequently every Message recorded in the Connection built by any command
sequence has a non-empty recipient list. -/
theorem C4_data_needs_recipient :
    (∀ (e : Engine) (s : String), e.state = SmtpState.mail_from s [] →
      step e Command.data_cmd = (e, Reply.seqError)) ∧
    (∀ (cs : List Command) (ms : List Message),
      (stepAll initEngine cs).conn.messages = some ms →
      ∀ m ∈ ms, m.recipients ≠ []) := by
  constructor
  · intro e s hst
    rcases e with ⟨st, conn⟩
    simp only at hst
    subst hst
    simp [step]
  · intro cs ms hms
    have hinv := stepAll_inv cs initEngine initEngine_inv
    have h1 := hinv.1
    rw [hms] at h1
    exact h1

theorem C4_witness :
    step { state := SmtpState.mail_from "x@a.com" [],
           conn := { sender_domain := some "a.com", messages := some [] } }
        Command.data_cmd =
      ({ state := SmtpState.mail_from "x@a.com" [],
         conn := { sender_domain := some "a.com", messages := some [] } },
        Reply.seqError) ∧
    (∀ m ∈ ([] : List Message), m.recipients ≠ []) :=
  ⟨C4_data_needs_recipient.1 _ "x@a.com" rfl,
   C4_data_needs_recipient.2 [Command.helo "a.com"] [] (by rfl)⟩

/-- C5: a command issued outside its valid state yields a sequencing error
and leaves the engine — state and partially built Connection — exactly as it
was, and the session continues: running the rest of the session after the
rejected command gives the same result as if the command had never been
sent (only I/O items abort, handled separately in `runItems`). -/
theorem C5_sequencing_error_preserves_state (e : Engine) (c : Command)
    (h : validIn e.state c = false) :
    step e c = (e, Reply.seqError) ∧
    (∀ rest, runItems e (SessionItem.cmd c :: rest) = runItems e rest) := by
  have hstep : step e c = (e, Reply.seqError) := by
    rcases e with ⟨st, conn⟩
    cases st <;> cases c <;> simp_all [validIn, step]
  refine ⟨hstep, ?_⟩
  intro rest
  by_cases hcl : e.state = SmtpState.closed
  · cases rest with
    | nil =>
      simp [runItems, hcl, eofResult]
    | cons r rs =>
      simp [runItems, hcl]
  · simp [runItems, hcl, hstep]

theorem C5_witness :
    step initEngine Command.data_cmd = (initEngine, Reply.seqError) ∧
    runItems initEngine [SessionItem.cmd Command.data_cmd] =
      runItems initEngine [] :=
  ⟨(C5_sequencing_error_preserves_state initEngine Command.data_cmd (by rfl)).1,
   (C5_sequencing_error_preserves_state initEngine Command.data_cmd (by rfl)).2 []⟩

/-- C6: Clear empties the repository and returns the fixed acknowledgement
"Wiped", and a List performed immediately afterwards (no session in between)
returns count 0 and an empty connections list. -/
theorem C6_clear_then_list (repo : List Connection) :
    (clearOp repo).2 = "Wiped" ∧ (clearOp repo).1 = [] ∧
    (listOp (clearOp repo).1).2 = { count := 0, connections := [] } :=
  ⟨rfl, rfl, rfl⟩

/-- C7: a single session running two full message cycles before terminating
yields one Connection with exactly two Messages, in submission order, under
the single sender domain recorded at the greeting. -/
theorem C7_two_message_cycles :
    Connection.handle
      [SessionItem.cmd (Command.helo "a.com"),
       SessionItem.cmd (Command.mail_from "x@a.com"),
       SessionItem.cmd (Command.rcpt_to "y@b.com"),
       SessionItem.cmd Command.data_cmd,
       SessionItem.cmd (Command.line "first"),
       SessionItem.cmd (Command.line "."),
       SessionItem.cmd (Command.mail_from "w@a.com"),
       SessionItem.cmd (Command.rcpt_to "z@c.com"),
       SessionItem.cmd Command.data_cmd,
       SessionItem.cmd (Command.line "second"),
       SessionItem.cmd (Command.line "."),
       SessionItem.cmd Command.quit] =
      Except.ok { sender_domain := some "a.com",
                  messages := some
                    [{ sender := "x@a.com", recipients := ["y@b.com"],
                       data := "first" },
                     { sender := "w@a.com", recipients := ["z@c.com"],
                       data := "second" }] } := by
  rfl

/-- C8: with no intervening sessions, Clear is idempotent and List does not
modify the repository, so two consecutive List calls return equal
responses. -/
theorem C8_list_clear_idempotent (repo : List Connection) :
    clearOp (clearOp repo).1 = clearOp repo ∧
    (listOp repo).1 = repo ∧
    (listOp (listOp repo).1).2 = (listOp repo).2 :=
  ⟨rfl, rfl, rfl⟩

/-- C9: the REST server always binds 127.0.0.1 together with the configured
rest port, independently of the configured bind host, while the SMTP listener
binds the configured host/port string. -/
theorem C9_bind_addresses (c : Config) :
    restBindAddr c = { ip := (127, 0, 0, 1), port := c.rest_port } ∧
    smtpBindAddr c = c.host ++ ":" ++ c.smtp_port :=
  ⟨rfl, rfl⟩

/-- C10: every Connection returned on the success path of
`smtp::Connection::handle` has a populated sender domain and message list, so
the `unwrap` calls on `get_sender_domain()` and `get_messages()` in
`handle_connection`'s success branch never panic. -/
theorem C10_success_fields_populated (items : List SessionItem)
    (cn : Connection) (h : Connection.handle items = Except.ok cn) :
    (cn.get_sender_domain).isSome = true ∧ (cn.get_messages).isSome = true := by
  have hres := runItems_ok items initEngine initEngine_inv cn h
  exact ⟨hres.2.1, hres.2.2⟩

theorem C10_witness :
    ((Connection.mk (some "a.com") (some [])).get_sender_domain).isSome = true ∧
    ((Connection.mk (some "a.com") (some [])).get_messages).isSome = true :=
  C10_success_fields_populated
    [SessionItem.cmd (Command.helo "a.com"), SessionItem.cmd Command.quit]
    (Connection.mk (some "a.com") (some [])) (by rfl)
